import Mathlib

/-!
Verification development for the Ansys msh reader/writer (`ansys_io.py`).

The reader `read` is embedded as a record-level state machine: the byte-level
scanner yields successive top-level parenthesised records, and each record is
modelled by `MshRecord` (the digit tag string captured by the dispatch regex,
whether the tag line is self-contained, the hex-parsed zone-descriptor
integers, and the payload rows).  The reader loop becomes explicit state
passing over `RState`; Python exceptions (AssertionError, KeyError,
StopIteration, ValueError, TypeError) become `Except.error`.  The writer
`write` is embedded as a pure function from a mesh to the list of lines it
emits plus an optional error for an exception raised mid-write.
-/

set_option maxHeartbeats 1000000

deriving instance DecidableEq for Except

namespace Ansys

/-- One top-level parenthesised record of an msh stream, as the reader sees
it after the byte-level scan: the digit tag captured by the dispatch regex
`(\s*\(\s*([0-9]+).*)`, whether the tag line is self-contained (equal counts
of opening and closing parentheses, meaning a bare declaration with no body),
the hex-parsed zone-descriptor integers, and the payload rows — decimal
floats (modelled as rationals) for point records, hex integers for cell and
face records. -/
structure MshRecord where
  tag : String
  selfContained : Bool
  zone : List Nat
  frows : List (List ℚ)
  irows : List (List Nat)
deriving DecidableEq

/-- Accumulator state of the reader loop in `read`: the point chunks read so
far (`points` is a list of chunks, one per point zone, exactly as in the
source), the first point index seen overall, the last point index of the most
recent point zone, the cells dictionary (an insertion-ordered association
list, modelling a Python dict), and the warnings emitted so far. -/
structure RState where
  points : List (List (List ℚ))
  first_point_index_overall : Option Nat
  last_point_index : Option Nat
  cells : List (String × List (List Nat))
  warns : List String
deriving DecidableEq

/-- Initial accumulator state of `read`. -/
def initState : RState := ⟨[], none, none, [], []⟩

/-- Element-type table for volume-cell records (tags 12, 2012, 3012),
translated from the dictionary `element_type_to_key_num_nodes` in `read`;
`none` models a Python KeyError on lookup, and the arity (number of nodes per
cell) is `none` for the mixed type. -/
def element_type_to_key_num_nodes (t : Nat) : Option (String × Option Nat) :=
  match t with
  | 0 => some ("mixed", none)
  | 1 => some ("triangle", some 3)
  | 2 => some ("tetra", some 4)
  | 3 => some ("quad", some 4)
  | 4 => some ("hexa", some 8)
  | 5 => some ("pyra", some 5)
  | 6 => some ("wedge", some 6)
  | _ => none

/-- Element-type table for face records (tags 13, 2013, 3013), translated
from the face variant of `element_type_to_key_num_nodes` in `read`. -/
def face_type_to_key_num_nodes (t : Nat) : Option (String × Option Nat) :=
  match t with
  | 0 => some ("mixed", none)
  | 2 => some ("line", some 2)
  | 3 => some ("triangle", some 3)
  | 4 => some ("quad", some 4)
  | _ => none

/-- Does the association-list dictionary hold key `k`?  Models `k in d` on a
Python dict. -/
def dictMem {α : Type} (d : List (String × α)) (k : String) : Bool :=
  d.any (fun p => p.1 == k)

/-- Assignment `d[k] = v` on a Python dict: replaces in place when the key is
present (its position is preserved), appends otherwise. -/
def dictSet {α : Type} (d : List (String × α)) (k : String) (v : α) :
    List (String × α) :=
  if dictMem d k then d.map (fun p => if p.1 == k then (k, v) else p)
  else d ++ [(k, v)]

/-- Lookup `d[k]` on a Python dict, `none` when absent. -/
def dictGet? {α : Type} (d : List (String × α)) (k : String) : Option α :=
  (d.find? (fun p => p.1 == k)).map (fun p => p.2)

/-- The merge step `cells[key] = concatenate([cells[key], v])` when the key
is present, `cells[key] = v` otherwise. -/
def dictAppend (d : List (String × List (List Nat))) (k : String)
    (v : List (List Nat)) : List (String × List (List Nat)) :=
  if dictMem d k then d.map (fun p => if p.1 == k then (k, p.2 ++ v) else p)
  else d ++ [(k, v)]

/-- Read `num` payload rows of width `width`.  Models both the per-row loops
of the ASCII handlers (running out of lines raises StopIteration; a row of
the wrong width fails the width assertion) and the fromstring/reshape of the
binary handlers (short data fails; the reshape fixes the width). -/
def readRows {α : Type} (rows : List (List α)) (num width : Nat) :
    Except String (List (List α)) :=
  if rows.length < num then .error ("StopIteration")
  else if (rows.take num).all (fun r => r.length == width) then
    .ok (rows.take num)
  else .error ("AssertionError: row width")

/-- The point-zone contiguity test of `read`: with a previous zone ending at
`l`, the next zone must start at `l + 1` (`assert last_point_index + 1 ==
first_point_index`). -/
def noncontig (lastIdx : Option Nat) (first : Nat) : Bool :=
  match lastIdx with
  | some l => l + 1 != first
  | none => false

/-- Shared body of the ASCII (tag 10) and binary (tags 2010, 3010) point-zone
handlers in `read`: check the zone descriptor has more than four fields,
record the very first point index, check contiguity with the previous point
zone, then read `last - first + 1` rows of `ND` coordinates and append them
as one chunk. -/
def handlePointsCore (st : RState) (r : MshRecord) : Except String RState :=
  if r.zone.length ≤ 4 then .error ("AssertionError: zone descriptor")
  else
    let first_point_index := r.zone.getD 1 0
    let fpo := match st.first_point_index_overall with
      | some f => f
      | none => first_point_index
    if noncontig st.last_point_index first_point_index then
      .error ("AssertionError: point zones not subsequent")
    else
      let last := r.zone.getD 2 0
      let dim := r.zone.getD 4 0
      let num : Int := (last : Int) - (first_point_index : Int) + 1
      if num < 0 then .error ("ValueError: negative dimensions")
      else
        match readRows r.frows num.toNat dim with
        | .error e => .error e
        | .ok pts =>
            .ok { st with points := st.points ++ [pts],
                          first_point_index_overall := some fpo,
                          last_point_index := some last }

/-- Handler for an ASCII point zone (tag 10): a self-contained line is merely
a declaration of the total number of points and is skipped. -/
def handlePoints10 (st : RState) (r : MshRecord) : Except String RState :=
  if r.selfContained then .ok st
  else handlePointsCore st r

/-- Handler for a binary point zone (tags 2010, 3010), via
`_read_binary_points`.  On a self-contained declaration line the helper
returns a bare `None`, which the caller unpacks into three variables — a
TypeError, so the model errors there. -/
def handleBinaryPoints (st : RState) (r : MshRecord) : Except String RState :=
  if r.selfContained then .error ("TypeError: cannot unpack None")
  else handlePointsCore st r

/-- Handler for an ASCII volume-cell zone (tag 12): the mixed element type is
skipped with a warning; otherwise the rows are read at the arity of the
resolved type and assigned (`cells[key] = data`) under the resolved key. -/
def handleCells12 (st : RState) (r : MshRecord) : Except String RState :=
  if r.selfContained then .ok st
  else if r.zone.length ≤ 4 then .error ("AssertionError: zone descriptor")
  else
    let first_index := r.zone.getD 1 0
    let last_index := r.zone.getD 2 0
    let element_type := r.zone.getD 4 0
    let num : Int := (last_index : Int) - (first_index : Int) + 1
    match element_type_to_key_num_nodes element_type with
    | none => .error ("KeyError: element type")
    | some (key, arity?) =>
      if key == "mixed" then
        .ok { st with warns :=
          st.warns ++ ["Cannot deal with mixed element type. Skipping."] }
      else if num < 0 then .error ("ValueError: negative dimensions")
      else
        match readRows r.irows num.toNat (arity?.getD 0) with
        | .error e => .error e
        | .ok data => .ok { st with cells := dictSet st.cells key data }

/-- Handler for a binary volume-cell zone (tags 2012, 3012): the mixed
element type fails the assertion `key != 'mixed'` (fatal); otherwise as the
ASCII case, with the rows coming from a fromstring/reshape. -/
def handleBinaryCells (st : RState) (r : MshRecord) : Except String RState :=
  if r.selfContained then .ok st
  else if r.zone.length ≤ 4 then .error ("AssertionError: zone descriptor")
  else
    let first_index := r.zone.getD 1 0
    let last_index := r.zone.getD 2 0
    let element_type := r.zone.getD 4 0
    let num : Int := (last_index : Int) - (first_index : Int) + 1
    match element_type_to_key_num_nodes element_type with
    | none => .error ("KeyError: element type")
    | some (key, arity?) =>
      if key == "mixed" then .error ("AssertionError: mixed binary cell zone")
      else if num < 0 then .error ("ValueError: negative dimensions")
      else
        match readRows r.irows num.toNat (arity?.getD 0) with
        | .error e => .error e
        | .ok data => .ok { st with cells := dictSet st.cells key data }

/-- One row of a mixed ASCII face zone: the first hex value is the per-row
face type (asserted nonzero, then looked up in the face table — a KeyError
for types absent from it), the row must hold that type's arity of node
indices plus two adjacent-cell ids (width `arity + 3` including the type
field), and the node indices `dat[1 : arity + 1]` are kept. -/
def mixedFaceRow (row : List Nat) : Except String (String × List Nat) :=
  match row with
  | [] => .error ("IndexError: empty row")
  | t :: _ =>
    if t == 0 then .error ("AssertionError: face type 0")
    else match face_type_to_key_num_nodes t with
    | none => .error ("KeyError: face type")
    | some (ts, arity?) =>
      if row.length == arity?.getD 0 + 3 then
        .ok (ts, (row.drop 1).take (arity?.getD 0))
      else .error ("AssertionError: row width")

/-- The row loop of the mixed face-zone handler: group the node lists of the
rows by their per-row face type in a local insertion-ordered dict. -/
def mixedCollect : List (List Nat) → List (String × List (List Nat)) →
    Except String (List (String × List (List Nat)))
  | [], acc => .ok acc
  | row :: rest, acc =>
    match mixedFaceRow row with
    | .error e => .error e
    | .ok p => mixedCollect rest (dictAppend acc p.1 [p.2])

/-- The merge loop `for key in data: ...` at the end of the face handlers:
concatenate under an existing key, assign a new one. -/
def mergeCells (cells data : List (String × List (List Nat))) :
    List (String × List (List Nat)) :=
  data.foldl (fun c p => dictAppend c p.1 p.2) cells

/-- Handler for an ASCII face zone (tag 13): mixed zones are grouped row by
row via the per-row type tag; fixed-type zones read rows of `arity + 2` hex
values and drop the two adjacent-cell columns; either way the result is
merged into the accumulated cells by type key. -/
def handleFaces13 (st : RState) (r : MshRecord) : Except String RState :=
  if r.selfContained then .ok st
  else if r.zone.length ≤ 4 then .error ("AssertionError: zone descriptor")
  else
    let first_index := r.zone.getD 1 0
    let last_index := r.zone.getD 2 0
    let element_type := r.zone.getD 4 0
    let num : Int := (last_index : Int) - (first_index : Int) + 1
    match face_type_to_key_num_nodes element_type with
    | none => .error ("KeyError: element type")
    | some (key, arity?) =>
      if key == "mixed" then
        if r.irows.length < num.toNat then .error ("StopIteration")
        else
          match mixedCollect (r.irows.take num.toNat) [] with
          | .error e => .error e
          | .ok data => .ok { st with cells := mergeCells st.cells data }
      else if num < 0 then .error ("ValueError: negative dimensions")
      else
        match readRows r.irows num.toNat (arity?.getD 0 + 2) with
        | .error e => .error e
        | .ok rows =>
            let data := [(key, rows.map (fun row => row.take (arity?.getD 0)))]
            .ok { st with cells := mergeCells st.cells data }

/-- Handler for a binary face zone (tags 2013, 3013): the mixed element type
fails the assertion `key != 'mixed'` (fatal); otherwise read the
`(num_cells, arity + 2)` block, cut off the two adjacent-cell columns and
merge by type key. -/
def handleBinaryFaces (st : RState) (r : MshRecord) : Except String RState :=
  if r.selfContained then .ok st
  else if r.zone.length ≤ 4 then .error ("AssertionError: zone descriptor")
  else
    let first_index := r.zone.getD 1 0
    let last_index := r.zone.getD 2 0
    let element_type := r.zone.getD 4 0
    let num : Int := (last_index : Int) - (first_index : Int) + 1
    match face_type_to_key_num_nodes element_type with
    | none => .error ("KeyError: element type")
    | some (key, arity?) =>
      if key == "mixed" then .error ("AssertionError: mixed binary face zone")
      else if num < 0 then .error ("ValueError: negative dimensions")
      else
        match readRows r.irows num.toNat (arity?.getD 0 + 2) with
        | .error e => .error e
        | .ok rows =>
            let data := [(key, rows.map (fun row => row.take (arity?.getD 0)))]
            .ok { st with cells := mergeCells st.cells data }

/-- Classification of a record by its tag string, mirroring the elif chain of
`read` in order: exact matches for the small tags, then the prefix regexes
`[2,3]010`, `[2,3]012`, `[2,3]013` (Python `re.match` anchors at the start
only, so it is a prefix test). -/
inductive TagKind
  | comment
  | header
  | dimension
  | asciiPoints
  | binPoints
  | asciiCells
  | binCells
  | asciiFaces
  | binFaces
  | unknown
deriving DecidableEq

/-- Anchored-prefix test of `re.match`: does `t` start with `p`?  Stated on
the character lists of the strings so that it computes by structural
recursion. -/
def tagStarts (p t : String) : Bool := p.data.isPrefixOf t.data

/-- Dispatch of `read` on the tag string, in the source's elif order. -/
def tagKind (t : String) : TagKind :=
  if t == "0" then .comment
  else if t == "1" then .header
  else if t == "2" then .dimension
  else if t == "10" then .asciiPoints
  else if tagStarts ("2010") t || tagStarts ("3010") t then .binPoints
  else if t == "12" then .asciiCells
  else if tagStarts ("2012") t || tagStarts ("3012") t then .binCells
  else if t == "13" then .asciiFaces
  else if tagStarts ("2013") t || tagStarts ("3013") t then .binFaces
  else .unknown

/-- One iteration of the reader loop of `read`: dispatch the record to its
handler.  Comment, header and dimensionality records are skipped; an unknown
tag is skipped with a warning. -/
def step (st : RState) (r : MshRecord) : Except String RState :=
  match tagKind r.tag with
  | .comment => .ok st
  | .header => .ok st
  | .dimension => .ok st
  | .asciiPoints => handlePoints10 st r
  | .binPoints => handleBinaryPoints st r
  | .asciiCells => handleCells12 st r
  | .binCells => handleBinaryCells st r
  | .asciiFaces => handleFaces13 st r
  | .binFaces => handleBinaryFaces st r
  | .unknown =>
      .ok { st with warns := st.warns ++
        ["Unknown index \x27" ++ r.tag ++ "\x27. Skipping."] }

/-- The reader loop of `read` over the whole stream of records. -/
def runRecs : RState → List MshRecord → Except String RState
  | st, [] => .ok st
  | st, r :: rs =>
    match step st r with
    | .error e => .error e
    | .ok st2 => runRecs st2 rs

/-- The decode result: the concatenated points array, the cells dictionary
with node indices rebased by `first_point_index_overall` (so they are
integers), and the warnings emitted.  The auxiliary `point_data`,
`cell_data`, `field_data` outputs of `read` are always empty and omitted. -/
structure DecodeResult where
  points : List (List ℚ)
  cells : List (String × List (List Int))
  warns : List String
deriving DecidableEq

/-- Finalisation of `read` after the stream is exhausted:
`numpy.concatenate(points)` — a ValueError when no point chunk was read —
then `cells[key] -= first_point_index_overall` for every key; with a
nonempty cells dict but no recorded first point index, the subtraction of
`None` is a TypeError. -/
def finalize (st : RState) : Except String DecodeResult :=
  if st.points.isEmpty then
    .error ("ValueError: need at least one array to concatenate")
  else if st.cells.isEmpty then .ok ⟨st.points.flatten, [], st.warns⟩
  else
    match st.first_point_index_overall with
    | none => .error ("TypeError: unsupported operand")
    | some f =>
        .ok ⟨st.points.flatten,
             st.cells.map (fun p =>
               (p.1, p.2.map (fun row => row.map (fun (i : Nat) => (i : Int) - f)))),
             st.warns⟩

/-- The whole reader `read` of `ansys_io.py`, at record level: run the loop
from the empty state and finalise. -/
def read (recs : List MshRecord) : Except String DecodeResult :=
  match runRecs initState recs with
  | .error e => .error e
  | .ok st => finalize st

/-- One line written by the writer `write`: either literal text, or one row
of point coordinates emitted by `numpy.savetxt(fh, points, fmt = percent
.15e)` — the 15-significant-digit decimal rendering itself is kept symbolic
as the row of coordinate values, since no claim inspects the decimal text. -/
inductive WLine
  | text (s : String)
  | floatRow (coords : List ℚ)
deriving DecidableEq

/-- Lowercase hexadecimal rendering of a natural number, as Python percent-x
formatting. -/
def hexStr (n : Nat) : String := ⟨Nat.toDigits 16 n⟩

/-- Python percent-x formatting of a possibly negative integer: a minus sign
followed by the hex digits of the absolute value. -/
def hexStrI (i : Int) : String :=
  if i < 0 then "-" ++ hexStr i.natAbs else hexStr i.toNat

/-- Column `j` of a numpy array built from the point rows: `points[:, j]`.
An empty point set has one-dimensional shape `(0,)`, so two-index access
raises an IndexError; a nonempty array needs `j` within every row. -/
def npColumn (pts : List (List ℚ)) (j : Nat) : Option (List ℚ) :=
  if pts.isEmpty then none
  else if pts.all (fun row => j < row.length) then
    some (pts.map (fun row => row.getD j 0))
  else none

/-- The writer's element-type table `meshio_to_ansys_type`, verbatim from the
source (its fourth key is the string `hex`); `none` models a Python KeyError
on lookup. -/
def meshio_to_ansys_type (k : String) : Option Nat :=
  if k == "triangle" then some 1
  else if k == "tetra" then some 2
  else if k == "quad" then some 3
  else if k == "hex" then some 4
  else if k == "pyra" then some 5
  else if k == "wedge" then some 6
  else none

/-- The per-cell-group loop at the end of `write`: each group gets a tag-12
block declaring the index sub-range `[first_index, first_index + len - 1]`
(hex) and the element-type code (decimal), followed by the rows of node
indices shifted by `first_node_index` in hex; an unknown key raises KeyError
there, leaving the blocks already written.  Returns the lines written and the
error, if any. -/
def writeCellBlocks (first_node_index : Nat) :
    Int → List (String × List (List Nat)) → List WLine × Option String
  | _, [] => ([], none)
  | first_index, (key, values) :: rest =>
    match meshio_to_ansys_type key with
    | none => ([], some ("KeyError: " ++ key))
    | some t =>
      let last_index : Int := first_index + values.length - 1
      let header := WLine.text ("(12 (1 " ++ hexStrI first_index ++ " " ++
        hexStrI last_index ++ " 1 " ++ toString t ++ ")(")
      let body := values.map (fun row => WLine.text
        (String.intercalate " " (row.map (fun v => hexStr (v + first_node_index)))))
      match writeCellBlocks first_node_index (last_index + 1) rest with
      | (ls, e) => (header :: body ++ [WLine.text ("))")] ++ ls, e)

/-- The writer `write` of `ansys_io.py`.  The version string interpolated
into the header comes from the module attribute `__about__.__version__`,
which is outside this component; per the specification it is an opaque
caller-supplied string, so it is a parameter here.  The output is the list
of lines written before returning or raising, plus the error raised, if
any: evaluating `points[:, 2]` for the dimensionality record raises
IndexError when the points have no third column, and the total-cell count of
the tag-12 declaration is `sum([len(c) for c in cells])`, which iterates the
keys of the cells dict and therefore sums the lengths of the key strings. -/
def write (version : String) (points : List (List ℚ))
    (cells : List (String × List (List Nat))) : List WLine × Option String :=
  let header := WLine.text ("(1 \x22meshio " ++ version ++ "\x22)")
  match npColumn points 2 with
  | none => ([header], some ("IndexError: index 2 out of bounds"))
  | some col =>
    let dim : Nat := if col.all (fun x => x == 0) then 2 else 3
    let first_node_index := 1
    let decl10 := WLine.text ("(10 (0 " ++ hexStr first_node_index ++ " " ++
      hexStr points.length ++ " 0))")
    let total_num_cells := (cells.map (fun c => c.1.length)).sum
    let decl12 := WLine.text ("(12 (0 1 " ++ hexStr total_num_cells ++ " 0))")
    let ncols := (points.headD []).length
    let nodesHeader := WLine.text ("(10 (1 " ++ hexStr first_node_index ++
      " " ++ hexStr points.length ++ " 1 " ++ hexStr ncols ++ "))(")
    let pre := [header, WLine.text ("(2 " ++ toString dim ++ ")"), decl10,
      decl12, nodesHeader] ++ points.map WLine.floatRow ++ [WLine.text ("))")]
    match writeCellBlocks first_node_index 0 cells with
    | (ls, e) => (pre ++ ls, e)

/-! Spec-side view of the stream, stated independently of the reader loop,
used to express what the reader accumulates. -/

/-- A record that makes the reader read a chunk of point data: an ASCII or
binary point tag whose tag line is not a self-contained declaration. -/
def isPointDataRec (r : MshRecord) : Bool :=
  match tagKind r.tag with
  | .asciiPoints => !r.selfContained
  | .binPoints => !r.selfContained
  | _ => false

/-- The chunk of points a point record carries:
`last - first + 1` payload rows. -/
def chunkOf (r : MshRecord) : List (List ℚ) :=
  r.frows.take ((r.zone.getD 2 0 : Int) - (r.zone.getD 1 0 : Int) + 1).toNat

/-- The first point index of the stream: the `first-index` field of the
first point-data record. -/
def firstIdxOf (s : List MshRecord) : Option Nat :=
  (s.find? (fun r => isPointDataRec r)).map (fun r => r.zone.getD 1 0)

/-- The node-index rows a record can contribute to the cells dictionary:
a contiguous slice of one of its payload rows, starting at offset 0 (volume
cells and fixed-type faces) or 1 (mixed faces, whose first value is the
per-row type tag). -/
def rowFromRec (r : MshRecord) (row : List Nat) : Prop :=
  ∃ raw ∈ r.irows, ∃ d, d ≤ 1 ∧ row = (raw.drop d).take row.length

/-- A row originating in some record of the stream. -/
def rowFromStream (s : List MshRecord) (row : List Nat) : Prop :=
  ∃ r ∈ s, rowFromRec r row

/-- Every node-index row of every group of the cells dictionary satisfies
`Q`. -/
def cellsAll (Q : List Nat → Prop)
    (cells : List (String × List (List Nat))) : Prop :=
  ∀ p ∈ cells, ∀ row ∈ p.2, Q row

/-! Helper lemmas about the reader's building blocks. -/

theorem readRows_ok {α : Type} {rows : List (List α)} {num width : Nat}
    {data : List (List α)} (h : readRows rows num width = .ok data) :
    data = rows.take num ∧ ∀ r ∈ data, r.length = width := by
  unfold readRows at h
  split at h
  · exact Except.noConfusion h
  · split at h
    · next hall =>
        injection h with h
        subst h
        refine ⟨rfl, fun r hr => ?_⟩
        simpa using List.all_eq_true.mp hall r hr
    · exact Except.noConfusion h

theorem cellsAll_dictSet {Q : List Nat → Prop}
    {d : List (String × List (List Nat))} {k : String}
    {v : List (List Nat)} (hd : cellsAll Q d) (hv : ∀ row ∈ v, Q row) :
    cellsAll Q (dictSet d k v) := by
  intro p hp row hrow
  unfold dictSet at hp
  split at hp
  · rcases List.mem_map.mp hp with ⟨q, hq, hpq⟩
    by_cases hk : q.1 == k
    · rw [if_pos hk] at hpq
      subst hpq
      exact hv row hrow
    · rw [if_neg hk] at hpq
      subst hpq
      exact hd q hq row hrow
  · rcases List.mem_append.mp hp with hp | hp
    · exact hd p hp row hrow
    · have : p = (k, v) := by simpa using hp
      subst this
      exact hv row hrow

theorem cellsAll_dictAppend {Q : List Nat → Prop}
    {d : List (String × List (List Nat))} {k : String}
    {v : List (List Nat)} (hd : cellsAll Q d) (hv : ∀ row ∈ v, Q row) :
    cellsAll Q (dictAppend d k v) := by
  intro p hp row hrow
  unfold dictAppend at hp
  split at hp
  · rcases List.mem_map.mp hp with ⟨q, hq, hpq⟩
    by_cases hk : q.1 == k
    · rw [if_pos hk] at hpq
      subst hpq
      rcases List.mem_append.mp hrow with hr | hr
      · exact hd q hq row hr
      · exact hv row hr
    · rw [if_neg hk] at hpq
      subst hpq
      exact hd q hq row hrow
  · rcases List.mem_append.mp hp with hp | hp
    · exact hd p hp row hrow
    · have : p = (k, v) := by simpa using hp
      subst this
      exact hv row hrow

theorem cellsAll_mergeCells {Q : List Nat → Prop}
    {cells data : List (String × List (List Nat))}
    (hc : cellsAll Q cells) (hd : cellsAll Q data) :
    cellsAll Q (mergeCells cells data) := by
  induction data generalizing cells with
  | nil => exact hc
  | cons p rest ih =>
      have h1 : mergeCells cells (p :: rest) =
          mergeCells (dictAppend cells p.1 p.2) rest := rfl
      rw [h1]
      exact ih
        (cellsAll_dictAppend hc (hd p (List.mem_cons_self p rest)))
        (fun q hq => hd q (List.mem_cons_of_mem p hq))

theorem mixedFaceRow_shape {row : List Nat} {ts : String} {nodes : List Nat}
    (h : mixedFaceRow row = .ok (ts, nodes)) :
    nodes = (row.drop 1).take nodes.length := by
  cases row with
  | nil => exact Except.noConfusion h
  | cons t rest =>
      simp only [mixedFaceRow] at h
      by_cases h0 : (t == 0) = true
      · rw [if_pos h0] at h; exact Except.noConfusion h
      · rw [if_neg h0] at h
        split at h
        · exact Except.noConfusion h
        · rename_i ts1 arity? htab
          split at h
          · rename_i hw
            injection h with hpair
            injection hpair with h1 h2
            have hlen : rest.length + 1 = arity?.getD 0 + 3 := by
              simpa using hw
            subst h2
            have hd : List.drop 1 (t :: rest) = rest := rfl
            rw [hd, List.length_take]
            have hmin : min (arity?.getD 0) rest.length = arity?.getD 0 := by
              omega
            rw [hmin]
          · exact Except.noConfusion h

theorem cellsAll_mixedCollect {Q : List Nat → Prop}
    {rows : List (List Nat)} {acc data : List (String × List (List Nat))}
    (h : mixedCollect rows acc = .ok data) (hacc : cellsAll Q acc)
    (hrows : ∀ row ∈ rows, ∀ ts nodes,
      mixedFaceRow row = .ok (ts, nodes) → Q nodes) :
    cellsAll Q data := by
  induction rows generalizing acc with
  | nil =>
      unfold mixedCollect at h
      injection h with h
      subst h
      exact hacc
  | cons row rest ih =>
      unfold mixedCollect at h
      cases hm : mixedFaceRow row with
      | error e => rw [hm] at h; exact Except.noConfusion h
      | ok p =>
          rw [hm] at h
          refine ih h (cellsAll_dictAppend hacc ?_)
            (fun q hq ts nodes hm2 =>
              hrows q (List.mem_cons_of_mem row hq) ts nodes hm2)
          intro r hr
          have : r = p.2 := by simpa using hr
          subst this
          exact hrows row (List.mem_cons_self row rest) p.1 p.2 (by rw [hm])

theorem rowFromRec_whole {r : MshRecord} {row : List Nat}
    (hmem : row ∈ r.irows) : rowFromRec r row :=
  ⟨row, hmem, 0, Nat.zero_le 1, by simp⟩

theorem rowFromRec_take {r : MshRecord} {raw : List Nat} {k : Nat}
    (hmem : raw ∈ r.irows) (hlen : k ≤ raw.length) :
    rowFromRec r (raw.take k) := by
  refine ⟨raw, hmem, 0, Nat.zero_le 1, ?_⟩
  rw [List.drop_zero, List.length_take]
  have hmin : min k raw.length = k := by omega
  rw [hmin]

theorem rowFromRec_drop1 {r : MshRecord} {raw row : List Nat}
    (hmem : raw ∈ r.irows)
    (hshape : row = (raw.drop 1).take row.length) : rowFromRec r row :=
  ⟨raw, hmem, 1, le_refl 1, hshape⟩

/-- What every cell or face handler guarantees on success: the point state is
untouched, and the cells dictionary only grows by rows sliced from the
record's own payload. -/
def cellHandlerShape (st st' : RState) (r : MshRecord) : Prop :=
  st'.points = st.points ∧
  st'.first_point_index_overall = st.first_point_index_overall ∧
  st'.last_point_index = st.last_point_index ∧
  ∀ Q : List Nat → Prop, cellsAll Q st.cells →
    (∀ row, rowFromRec r row → Q row) → cellsAll Q st'.cells

theorem handleCells12_shape {st st' : RState} {r : MshRecord}
    (h : handleCells12 st r = .ok st') : cellHandlerShape st st' r := by
  simp only [handleCells12] at h
  split at h
  · injection h with h
    subst h
    exact ⟨rfl, rfl, rfl, fun Q hQ _ => hQ⟩
  · split at h
    · exact Except.noConfusion h
    · split at h
      · exact Except.noConfusion h
      · rename_i key arity? htab
        split at h
        · injection h with h
          subst h
          exact ⟨rfl, rfl, rfl, fun Q hQ _ => hQ⟩
        · split at h
          · exact Except.noConfusion h
          · split at h
            · exact Except.noConfusion h
            · rename_i data hrr
              injection h with h
              subst h
              refine ⟨rfl, rfl, rfl, fun Q hQ hR => ?_⟩
              refine cellsAll_dictSet hQ ?_
              intro row hrow
              obtain ⟨hdata, _⟩ := readRows_ok hrr
              exact hR row (rowFromRec_whole (List.mem_of_mem_take (hdata ▸ hrow)))

theorem handleBinaryCells_shape {st st' : RState} {r : MshRecord}
    (h : handleBinaryCells st r = .ok st') : cellHandlerShape st st' r := by
  simp only [handleBinaryCells] at h
  split at h
  · injection h with h
    subst h
    exact ⟨rfl, rfl, rfl, fun Q hQ _ => hQ⟩
  · split at h
    · exact Except.noConfusion h
    · split at h
      · exact Except.noConfusion h
      · rename_i key arity? htab
        split at h
        · exact Except.noConfusion h
        · split at h
          · exact Except.noConfusion h
          · split at h
            · exact Except.noConfusion h
            · rename_i data hrr
              injection h with h
              subst h
              refine ⟨rfl, rfl, rfl, fun Q hQ hR => ?_⟩
              refine cellsAll_dictSet hQ ?_
              intro row hrow
              obtain ⟨hdata, _⟩ := readRows_ok hrr
              exact hR row (rowFromRec_whole (List.mem_of_mem_take (hdata ▸ hrow)))

theorem handleFaces13_shape {st st' : RState} {r : MshRecord}
    (h : handleFaces13 st r = .ok st') : cellHandlerShape st st' r := by
  simp only [handleFaces13] at h
  split at h
  · injection h with h
    subst h
    exact ⟨rfl, rfl, rfl, fun Q hQ _ => hQ⟩
  · split at h
    · exact Except.noConfusion h
    · split at h
      · exact Except.noConfusion h
      · rename_i key arity? htab
        split at h
        · split at h
          · exact Except.noConfusion h
          · split at h
            · exact Except.noConfusion h
            · rename_i data hmc
              injection h with h
              subst h
              refine ⟨rfl, rfl, rfl, fun Q hQ hR => ?_⟩
              refine cellsAll_mergeCells hQ ?_
              refine cellsAll_mixedCollect hmc ?_ ?_
              · intro p hp
                exact absurd hp (List.not_mem_nil p)
              · intro row hrow ts nodes hmfr
                exact hR nodes (rowFromRec_drop1
                  (List.mem_of_mem_take hrow) (mixedFaceRow_shape hmfr))
        · split at h
          · exact Except.noConfusion h
          · split at h
            · exact Except.noConfusion h
            · rename_i rows hrr
              injection h with h
              subst h
              refine ⟨rfl, rfl, rfl, fun Q hQ hR => ?_⟩
              refine cellsAll_mergeCells hQ ?_
              intro p hp row hrow
              have hp' : p = (key, rows.map (fun row => row.take (arity?.getD 0))) := by
                simpa using hp
              subst hp'
              rcases List.mem_map.mp hrow with ⟨raw, hraw, hrow'⟩
              obtain ⟨hdata, hwidth⟩ := readRows_ok hrr
              have hrawlen : raw.length = arity?.getD 0 + 2 := hwidth raw hraw
              subst hrow'
              exact hR _ (rowFromRec_take
                (List.mem_of_mem_take (hdata ▸ hraw)) (by omega))

theorem handleBinaryFaces_shape {st st' : RState} {r : MshRecord}
    (h : handleBinaryFaces st r = .ok st') : cellHandlerShape st st' r := by
  simp only [handleBinaryFaces] at h
  split at h
  · injection h with h
    subst h
    exact ⟨rfl, rfl, rfl, fun Q hQ _ => hQ⟩
  · split at h
    · exact Except.noConfusion h
    · split at h
      · exact Except.noConfusion h
      · rename_i key arity? htab
        split at h
        · exact Except.noConfusion h
        · split at h
          · exact Except.noConfusion h
          · split at h
            · exact Except.noConfusion h
            · rename_i rows hrr
              injection h with h
              subst h
              refine ⟨rfl, rfl, rfl, fun Q hQ hR => ?_⟩
              refine cellsAll_mergeCells hQ ?_
              intro p hp row hrow
              have hp' : p = (key, rows.map (fun row => row.take (arity?.getD 0))) := by
                simpa using hp
              subst hp'
              rcases List.mem_map.mp hrow with ⟨raw, hraw, hrow'⟩
              obtain ⟨hdata, hwidth⟩ := readRows_ok hrr
              have hrawlen : raw.length = arity?.getD 0 + 2 := hwidth raw hraw
              subst hrow'
              exact hR _ (rowFromRec_take
                (List.mem_of_mem_take (hdata ▸ hraw)) (by omega))

theorem handlePointsCore_shape {st st' : RState} {r : MshRecord}
    (h : handlePointsCore st r = .ok st') :
    st'.points = st.points ++ [chunkOf r] ∧
    st'.first_point_index_overall =
      some (match st.first_point_index_overall with
            | some f => f
            | none => r.zone.getD 1 0) ∧
    st'.last_point_index = some (r.zone.getD 2 0) ∧
    st'.cells = st.cells := by
  simp only [handlePointsCore] at h
  split at h
  · exact Except.noConfusion h
  · split at h
    · exact Except.noConfusion h
    · split at h
      · exact Except.noConfusion h
      · split at h
        · exact Except.noConfusion h
        · rename_i pts hrr
          injection h with h
          subst h
          obtain ⟨hdata, _⟩ := readRows_ok hrr
          refine ⟨?_, rfl, rfl, rfl⟩
          rw [hdata]
          rfl

theorem step_shape {st st' : RState} {r : MshRecord} (h : step st r = .ok st') :
    st'.points = st.points ++ (if isPointDataRec r then [chunkOf r] else []) ∧
    st'.first_point_index_overall =
      (match st.first_point_index_overall with
       | some f => some f
       | none => if isPointDataRec r then some (r.zone.getD 1 0) else none) ∧
    ∀ Q : List Nat → Prop, cellsAll Q st.cells →
      (∀ row, rowFromRec r row → Q row) → cellsAll Q st'.cells := by
  unfold step at h
  split at h <;> rename_i htk
  · injection h with h
    subst h
    refine ⟨by simp [isPointDataRec, htk], ?_, fun Q hQ _ => hQ⟩
    cases hfi : st.first_point_index_overall <;>
      simp [hfi, isPointDataRec, htk]
  · injection h with h
    subst h
    refine ⟨by simp [isPointDataRec, htk], ?_, fun Q hQ _ => hQ⟩
    cases hfi : st.first_point_index_overall <;>
      simp [hfi, isPointDataRec, htk]
  · injection h with h
    subst h
    refine ⟨by simp [isPointDataRec, htk], ?_, fun Q hQ _ => hQ⟩
    cases hfi : st.first_point_index_overall <;>
      simp [hfi, isPointDataRec, htk]
  · unfold handlePoints10 at h
    split at h
    · rename_i hsc
      injection h with h
      subst h
      refine ⟨by simp [isPointDataRec, htk, hsc], ?_, fun Q hQ _ => hQ⟩
      cases hfi : st.first_point_index_overall <;>
        simp [hfi, isPointDataRec, htk, hsc]
    · rename_i hsc
      obtain ⟨hp, hf, hl, hc⟩ := handlePointsCore_shape h
      have hscf : r.selfContained = false := by
        cases hb : r.selfContained
        · rfl
        · exact absurd hb hsc
      have hpt : isPointDataRec r = true := by
        simp [isPointDataRec, htk, hscf]
      refine ⟨by rw [hp, hpt]; simp, ?_, fun Q hQ _ => by rw [hc]; exact hQ⟩
      rw [hf, hpt]
      cases hfi : st.first_point_index_overall <;> simp [hfi]
  · unfold handleBinaryPoints at h
    split at h
    · exact Except.noConfusion h
    · rename_i hsc
      obtain ⟨hp, hf, hl, hc⟩ := handlePointsCore_shape h
      have hscf : r.selfContained = false := by
        cases hb : r.selfContained
        · rfl
        · exact absurd hb hsc
      have hpt : isPointDataRec r = true := by
        simp [isPointDataRec, htk, hscf]
      refine ⟨by rw [hp, hpt]; simp, ?_, fun Q hQ _ => by rw [hc]; exact hQ⟩
      rw [hf, hpt]
      cases hfi : st.first_point_index_overall <;> simp [hfi]
  · obtain ⟨hp, hf, hl, hc⟩ := handleCells12_shape h
    have hpt : isPointDataRec r = false := by simp [isPointDataRec, htk]
    refine ⟨by rw [hp, hpt]; simp, ?_, hc⟩
    rw [hf, hpt]
    cases hfi : st.first_point_index_overall <;> simp [hfi]
  · obtain ⟨hp, hf, hl, hc⟩ := handleBinaryCells_shape h
    have hpt : isPointDataRec r = false := by simp [isPointDataRec, htk]
    refine ⟨by rw [hp, hpt]; simp, ?_, hc⟩
    rw [hf, hpt]
    cases hfi : st.first_point_index_overall <;> simp [hfi]
  · obtain ⟨hp, hf, hl, hc⟩ := handleFaces13_shape h
    have hpt : isPointDataRec r = false := by simp [isPointDataRec, htk]
    refine ⟨by rw [hp, hpt]; simp, ?_, hc⟩
    rw [hf, hpt]
    cases hfi : st.first_point_index_overall <;> simp [hfi]
  · obtain ⟨hp, hf, hl, hc⟩ := handleBinaryFaces_shape h
    have hpt : isPointDataRec r = false := by simp [isPointDataRec, htk]
    refine ⟨by rw [hp, hpt]; simp, ?_, hc⟩
    rw [hf, hpt]
    cases hfi : st.first_point_index_overall <;> simp [hfi]
  · injection h with h
    subst h
    refine ⟨by simp [isPointDataRec, htk], ?_, fun Q hQ _ => hQ⟩
    cases hfi : st.first_point_index_overall <;>
      simp [hfi, isPointDataRec, htk]

theorem runRecs_shape {s : List MshRecord} {st st' : RState}
    (h : runRecs st s = .ok st') :
    st'.points = st.points ++
      ((s.filter (fun r => isPointDataRec r)).map chunkOf) ∧
    st'.first_point_index_overall =
      (match st.first_point_index_overall with
       | some f => some f
       | none => firstIdxOf s) ∧
    ∀ Q : List Nat → Prop, cellsAll Q st.cells →
      (∀ r ∈ s, ∀ row, rowFromRec r row → Q row) → cellsAll Q st'.cells := by
  induction s generalizing st with
  | nil =>
      unfold runRecs at h
      injection h with h
      subst h
      refine ⟨by simp, ?_, fun Q hQ _ => hQ⟩
      cases st.first_point_index_overall <;> simp [firstIdxOf]
  | cons r rs ih =>
      unfold runRecs at h
      cases hs : step st r with
      | error e => rw [hs] at h; exact Except.noConfusion h
      | ok st1 =>
          rw [hs] at h
          obtain ⟨hp1, hf1, hc1⟩ := step_shape hs
          obtain ⟨hp2, hf2, hc2⟩ := ih h
          refine ⟨?_, ?_, ?_⟩
          · rw [hp2, hp1]
            by_cases hpt : isPointDataRec r = true
            · rw [List.filter_cons_of_pos (by simpa using hpt), hpt]
              simp
            · rw [List.filter_cons_of_neg (by simpa using hpt)]
              simp [hpt]
          · rw [hf2, hf1]
            cases hfi : st.first_point_index_overall with
            | some f => simp
            | none =>
                by_cases hpt : isPointDataRec r = true
                · simp [firstIdxOf, List.find?_cons_of_pos, hpt]
                · have hptf : isPointDataRec r = false := by
                    cases hb : isPointDataRec r
                    · rfl
                    · exact absurd hb hpt
                  have hfi2 : firstIdxOf (r :: rs) = firstIdxOf rs := by
                    unfold firstIdxOf
                    rw [List.find?_cons_of_neg _ (by simp [hptf])]
                  simp [hptf, hfi2]
          · intro Q hQ hR
            exact hc2 Q
              (hc1 Q hQ (fun row hrow => hR r (List.mem_cons_self r rs) row hrow))
              (fun r2 hr2 row hrow => hR r2 (List.mem_cons_of_mem r hr2) row hrow)

theorem runRecs_append (a b : List MshRecord) (st : RState) :
    runRecs st (a ++ b) =
      match runRecs st a with
      | .error e => .error e
      | .ok st2 => runRecs st2 b := by
  induction a generalizing st with
  | nil => rfl
  | cons r rs ih =>
      simp only [List.cons_append, runRecs]
      cases hs : step st r with
      | error e => rfl
      | ok st1 => exact ih st1

theorem readRows_full {α : Type} (rows : List (List α)) (width : Nat)
    (h : ∀ row ∈ rows, row.length = width) :
    readRows rows rows.length width = .ok rows := by
  have hall : (rows.all fun r => r.length == width) = true := by
    rw [List.all_eq_true]
    intro row hrow
    simp [h row hrow]
  unfold readRows
  rw [List.take_length, if_neg (by omega), if_pos hall]

/-- An ASCII triangle cell zone declaring the index range `[1, n]` for its
`n` payload rows is read whole and assigned under the key `triangle`. -/
theorem handleCells12_triangle (st : RState) (rows : List (List Nat))
    (h : ∀ row ∈ rows, row.length = 3) :
    handleCells12 st (MshRecord.mk ("12") false [1, 1, rows.length, 1, 1] [] rows) =
      .ok { st with cells := dictSet st.cells ("triangle") rows } := by
  simp only [handleCells12]
  norm_num [List.getD, element_type_to_key_num_nodes]
  rw [if_neg (by simp), if_neg (by omega), readRows_full rows 3 h]

/-! Concrete example records for the individual claims. -/

/-- C5 example: an ASCII point zone covering indices 1 to 100. -/
def gapZoneA : MshRecord :=
  ⟨"10", false, [1, 1, 100, 1, 3], List.replicate 100 [0, 0, 0], []⟩

/-- C5 example: a point zone starting at 102 — a gap after a zone ending at
100. -/
def gapZoneB : MshRecord :=
  ⟨"10", false, [1, 102, 150, 1, 3], List.replicate 49 [0, 0, 0], []⟩

/-- C5 example: a point zone starting at 101 — contiguous after a zone ending
at 100. -/
def okZoneB : MshRecord :=
  ⟨"10", false, [1, 101, 150, 1, 3], List.replicate 50 [0, 0, 0], []⟩

/-- C9 example: first point record (one point). -/
def warnPointA : MshRecord := ⟨"10", false, [1, 1, 1, 1, 3], [[1, 2, 3]], []⟩

/-- C9 example: a record with the unrecognized top-level tag 42. -/
def unknownRec : MshRecord := ⟨"42", false, [7], [], []⟩

/-- C9 example: second point record (one point, contiguous). -/
def warnPointB : MshRecord := ⟨"10", false, [2, 2, 2, 1, 3], [[4, 5, 6]], []⟩

/-- C9 witness example: an ASCII tag-12 cell zone declaring element type 0
(mixed). -/
def mixedCellRec : MshRecord := ⟨"12", false, [1, 1, 1, 1, 0], [], []⟩

/-- C4 example: a point zone with six points. -/
def replPoint6 : MshRecord :=
  ⟨"10", false, [1, 1, 6, 1, 3], List.replicate 6 [0, 0, 0], []⟩

/-- C4 example: first triangle cell zone, one row of nodes 1 2 3. -/
def triZoneA : MshRecord := ⟨"12", false, [1, 1, 1, 1, 1], [], [[1, 2, 3]]⟩

/-- C4 example: second triangle cell zone, one row of nodes 4 5 6. -/
def triZoneB : MshRecord := ⟨"12", false, [1, 1, 1, 1, 1], [], [[4, 5, 6]]⟩

/-- C4 parametric stream: one point, then two ASCII triangle cell zones
carrying `rows1` and `rows2`. -/
def twoTriangleZones (rows1 rows2 : List (List Nat)) : List MshRecord :=
  [⟨"10", false, [1, 1, 1, 1, 3], [[0, 0, 0]], []⟩,
   ⟨"12", false, [1, 1, rows1.length, 1, 1], [], rows1⟩,
   ⟨"12", false, [1, 1, rows2.length, 1, 1], [], rows2⟩]

/-- C7 example: a point zone with five points starting at file index 1. -/
def facePoint5 : MshRecord :=
  ⟨"10", false, [1, 1, 5, 1, 3], List.replicate 5 [0, 0, 0], []⟩

/-- C7 example: a mixed ASCII face zone (tag 13, element type 0) with the
two rows of the specification: `3 1 2 3 10 11` (hex) and `2 4 5 12 13`
(hex). -/
def mixedFaceRec : MshRecord :=
  ⟨"13", false, [1, 1, 2, 1, 0], [], [[3, 1, 2, 3, 16, 17], [2, 4, 5, 18, 19]]⟩

/-- C8 witness example: a binary cell zone (tag 2012) declaring element type
0 (mixed). -/
def mixedBinCellRec : MshRecord := ⟨"2012", false, [1, 1, 1, 1, 0], [], []⟩

/-- C6 example: a point zone whose first file index is 5, carrying two
points. -/
def shiftPoint5 : MshRecord :=
  ⟨"10", false, [1, 5, 6, 1, 3], [[10, 11, 12], [20, 21, 22]], []⟩

/-- C6 example: a triangle cell zone referencing file point indices 5 and
6. -/
def shiftCell5 : MshRecord := ⟨"12", false, [1, 1, 1, 1, 1], [], [[5, 6, 5]]⟩

/-- C6 example: the decode result of `[shiftPoint5, shiftCell5]`. -/
def shiftResult : DecodeResult :=
  ⟨[[10, 11, 12], [20, 21, 22]], [("triangle", [[0, 1, 0]])], []⟩

/-! The claims. -/

/-- C1: the round-trip claim fails on the code for hexahedral meshes.  The
reader maps element type 4 to the cells key `hexa`, but the writer's table
`meshio_to_ansys_type` has no entry `hexa` (its entry is `hex`), so encoding
a mesh whose cells contain the point-cell type `hexa` raises a KeyError and
produces no decodable file at all: `decode(encode(mesh))` cannot return the
mesh. -/
theorem C1_hexa_roundtrip_fails :
    element_type_to_key_num_nodes 4 = some ("hexa", some 8) ∧
    meshio_to_ansys_type ("hexa") = none ∧
    (write ("v") [[0, 0, 1]] [("hexa", [[1, 2, 3, 4, 5, 6, 7, 8]])]).2 =
      some ("KeyError: hexa") := by
  refine ⟨rfl, rfl, ?_⟩
  decide

/-- C2: the header record (tag 1) is the first line `write` emits, for every
input, and it embeds the caller-supplied version string verbatim (as the
substring after `meshio `). -/
theorem C2_header_carries_version (version : String) (points : List (List ℚ))
    (cells : List (String × List (List Nat))) :
    (write version points cells).1.head? =
      some (WLine.text ("(1 \x22meshio " ++ version ++ "\x22)")) ∧
    ∃ a b, ("(1 \x22meshio " ++ version ++ "\x22)") = a ++ version ++ b := by
  constructor
  · unfold write
    cases hc : npColumn points 2 with
    | none => rfl
    | some col =>
        rcases hwb : writeCellBlocks 1 0 cells with ⟨ls, e⟩
        simp [hwb]
  · exact ⟨"(1 \x22meshio ", "\x22)", rfl⟩

/-- C3: the cell-count declaration `write` emits is not the sum of the
cell-group sizes: `sum([len(c) for c in cells])` iterates the keys of the
cells dict, so for a mesh with one triangle cell the declaration reads
`(12 (0 1 8 0))` — 8 is the length of the string `triangle` — although the
mesh has exactly one cell. -/
theorem C3_cell_count_sums_key_lengths :
    (write ("v") [[0, 0, 1]] [("triangle", [[0, 1, 2]])]).1.get? 3 =
      some (WLine.text ("(12 (0 1 8 0))")) ∧
    (([("triangle", [[0, 1, 2]])] : List (String × List (List Nat))).map
      (fun p => p.2.length)).sum = 1 := by
  constructor
  · decide
  · decide

/-- C10: `write` evaluates the third coordinate column `points[:, 2]`
unconditionally, so for every mesh whose points all have two components the
call fails with an IndexError after writing only the header — before the
dimensionality record. -/
theorem C10_two_component_points_fail (version : String)
    (points : List (List ℚ)) (cells : List (String × List (List Nat)))
    (hne : points ≠ []) (h2 : ∀ row ∈ points, row.length = 2) :
    write version points cells =
      ([WLine.text ("(1 \x22meshio " ++ version ++ "\x22)")],
       some ("IndexError: index 2 out of bounds")) := by
  have hcol : npColumn points 2 = none := by
    cases points with
    | nil => exact absurd rfl hne
    | cons p0 rest =>
        have h0 : p0.length = 2 := h2 p0 (List.mem_cons_self p0 rest)
        have hall : ¬(((p0 :: rest).all fun row => decide (2 < row.length)) = true) := by
          simp [List.all_cons, h0]
        unfold npColumn
        rw [if_neg (by simp), if_neg hall]
  unfold write
  rw [hcol]

/-- C10 witness: a one-point two-component mesh. -/
theorem C10_two_component_points_fail_witness :
    write ("1.0") [[0, 0]] [] =
      ([WLine.text ("(1 \x22meshio " ++ "1.0" ++ "\x22)")],
       some ("IndexError: index 2 out of bounds")) :=
  C10_two_component_points_fail ("1.0") [[0, 0]] [] (by decide) (by decide)

/-- C4 counterexample: two ASCII tag-12 triangle zones — node rows `1 2 3`
then `4 5 6` over a six-point zone starting at 1.  The decoded cells mapping
for `triangle` holds only the second zone's (rebased) row `[3, 4, 5]`; the
first zone's rebased row `[0, 1, 2]` is gone, so the mapping does not contain
the rows of both zones. -/
theorem C4_counterexample :
    read [replPoint6, triZoneA, triZoneB] =
      .ok ⟨List.replicate 6 [0, 0, 0], [("triangle", [[3, 4, 5]])], []⟩ ∧
    ¬ ([(0 : Int), 1, 2] ∈ [[(3 : Int), 4, 5]]) := by
  constructor
  · decide
  · decide

/-- C4 amended: for two ASCII tag-12 cell zones resolving to the same key,
the second zone's rows replace the first zone's rows in the decoded cells
mapping (the handler assigns `cells[key] = data`; only tag-13 face zones
concatenate). -/
theorem C4_second_zone_replaces_first (rows1 rows2 : List (List Nat))
    (h1 : ∀ row ∈ rows1, row.length = 3)
    (h2 : ∀ row ∈ rows2, row.length = 3) :
    read (twoTriangleZones rows1 rows2) =
      .ok ⟨[[0, 0, 0]],
           [("triangle", rows2.map (fun row => row.map (fun (i : Nat) => (i : Int) - 1)))],
           []⟩ := by
  have hstep1 : step initState (MshRecord.mk ("10") false [1, 1, 1, 1, 3] [[0, 0, 0]] []) =
      .ok ⟨[[[0, 0, 0]]], some 1, some 1, [], []⟩ := by decide
  have hstep2 : step ⟨[[[0, 0, 0]]], some 1, some 1, [], []⟩
      (MshRecord.mk ("12") false [1, 1, rows1.length, 1, 1] [] rows1) =
      .ok ⟨[[[0, 0, 0]]], some 1, some 1, [("triangle", rows1)], []⟩ := by
    have hh := handleCells12_triangle ⟨[[[0, 0, 0]]], some 1, some 1, [], []⟩ rows1 h1
    rw [show step ⟨[[[0, 0, 0]]], some 1, some 1, [], []⟩
        (MshRecord.mk ("12") false [1, 1, rows1.length, 1, 1] [] rows1) =
        handleCells12 ⟨[[[0, 0, 0]]], some 1, some 1, [], []⟩
        (MshRecord.mk ("12") false [1, 1, rows1.length, 1, 1] [] rows1) from rfl]
    rw [hh]
    simp [dictSet, dictMem]
  have hstep3 : step ⟨[[[0, 0, 0]]], some 1, some 1, [("triangle", rows1)], []⟩
      (MshRecord.mk ("12") false [1, 1, rows2.length, 1, 1] [] rows2) =
      .ok ⟨[[[0, 0, 0]]], some 1, some 1, [("triangle", rows2)], []⟩ := by
    have hh := handleCells12_triangle
      ⟨[[[0, 0, 0]]], some 1, some 1, [("triangle", rows1)], []⟩ rows2 h2
    rw [show step ⟨[[[0, 0, 0]]], some 1, some 1, [("triangle", rows1)], []⟩
        (MshRecord.mk ("12") false [1, 1, rows2.length, 1, 1] [] rows2) =
        handleCells12 ⟨[[[0, 0, 0]]], some 1, some 1, [("triangle", rows1)], []⟩
        (MshRecord.mk ("12") false [1, 1, rows2.length, 1, 1] [] rows2) from rfl]
    rw [hh]
    simp [dictSet, dictMem]
  unfold read twoTriangleZones
  simp only [runRecs, hstep1, hstep2, hstep3]
  simp [finalize]

/-- C4 amended witness: the concrete zones of the counterexample, with rows
`[[1, 2, 3]]` and `[[4, 5, 6]]`. -/
theorem C4_second_zone_replaces_first_witness :
    read (twoTriangleZones [[1, 2, 3]] [[4, 5, 6]]) =
      .ok ⟨[[0, 0, 0]],
           [("triangle", ([[4, 5, 6]] : List (List Nat)).map (fun row => row.map (fun (i : Nat) => (i : Int) - 1)))],
           []⟩ :=
  C4_second_zone_replaces_first [[1, 2, 3]] [[4, 5, 6]] (by decide) (by decide)

/-- C5: point zones must be index-contiguous.  In general, a point-data
record whose first-index differs from the previous zone's last-index plus
one makes the reader fail with the contiguity assertion; concretely, point
zones `[1, 100]` then `[102, 150]` fail fatally while `[1, 100]` then
`[101, 150]` decode to the 150 concatenated points. -/
theorem C5_point_zone_contiguity (st : RState) (r : MshRecord) (L fi : Nat)
    (hL : st.last_point_index = some L)
    (hpt : isPointDataRec r = true)
    (hz : r.zone.getD 1 0 = fi)
    (hlen : 4 < r.zone.length)
    (hne : fi ≠ L + 1) :
    step st r = .error ("AssertionError: point zones not subsequent") ∧
    read [gapZoneA, gapZoneB] =
      .error ("AssertionError: point zones not subsequent") ∧
    read [gapZoneA, okZoneB] =
      .ok ⟨List.replicate 150 [0, 0, 0], [], []⟩ := by
  refine ⟨?_, by decide, by decide⟩
  have hnc : noncontig st.last_point_index (r.zone.getD 1 0) = true := by
    rw [hz, hL]
    unfold noncontig
    simp only [bne_iff_ne]
    omega
  have hcore : handlePointsCore st r =
      .error ("AssertionError: point zones not subsequent") := by
    simp only [handlePointsCore]
    rw [if_neg (by omega), if_pos hnc]
  cases htk : tagKind r.tag <;> simp only [isPointDataRec, htk] at hpt <;>
    simp only [step, htk] <;> try exact absurd hpt (by decide)
  · have hscf : r.selfContained = false := by simpa using hpt
    simp [handlePoints10, hscf, hcore]
  · have hscf : r.selfContained = false := by simpa using hpt
    simp [handleBinaryPoints, hscf, hcore]

/-- C5 witness: a state whose last point index is 100 and the gap zone
starting at 102. -/
theorem C5_point_zone_contiguity_witness :
    step ⟨[], none, some 100, [], []⟩ gapZoneB =
      .error ("AssertionError: point zones not subsequent") ∧
    read [gapZoneA, gapZoneB] =
      .error ("AssertionError: point zones not subsequent") ∧
    read [gapZoneA, okZoneB] =
      .ok ⟨List.replicate 150 [0, 0, 0], [], []⟩ :=
  C5_point_zone_contiguity ⟨[], none, some 100, [], []⟩ gapZoneB 100 102
    rfl (by decide) rfl (by decide) (by decide)

/-- C7: a mixed ASCII face zone (tag 13, element type 0) selects each row's
arity from its leading face-type tag and groups rows by resolved type: for
the rows `3 1 2 3 10 11` and `2 4 5 12 13` (hex) the loop alone accumulates
`triangle` to the nodes `[1, 2, 3]` and `line` to `[4, 5]` (before
rebasing), and a full decode over a point zone starting at index 1 yields the
same rows rebased by 1. -/
theorem C7_mixed_face_zone :
    runRecs initState [mixedFaceRec] =
      .ok ⟨[], none, none, [("triangle", [[1, 2, 3]]), ("line", [[4, 5]])], []⟩ ∧
    read [facePoint5, mixedFaceRec] =
      .ok ⟨List.replicate 5 [0, 0, 0],
           [("triangle", [[0, 1, 2]]), ("line", [[3, 4]])], []⟩ := by
  constructor
  · decide
  · decide

/-- C8: a binary cell zone (tag 2012 or 3012) whose zone descriptor declares
element type 0 (mixed) makes the decode fail fatally — wherever it occurs in
the stream, no mesh is returned. -/
theorem C8_mixed_binary_cell_zone_fatal (s1 s2 : List MshRecord) (st : RState)
    (r : MshRecord)
    (h1 : runRecs initState s1 = .ok st)
    (h2 : r.tag = "2012" ∨ r.tag = "3012")
    (h3 : r.selfContained = false)
    (h4 : r.zone.getD 4 0 = 0)
    (h5 : 4 < r.zone.length) :
    read (s1 ++ r :: s2) = .error ("AssertionError: mixed binary cell zone") := by
  have htk : tagKind r.tag = .binCells := by
    rcases h2 with h | h <;> rw [h] <;> decide
  have hstep : step st r = .error ("AssertionError: mixed binary cell zone") := by
    simp only [step, htk]
    simp only [handleBinaryCells]
    rw [if_neg (by simp [h3]), if_neg (by omega), h4]
    rfl
  unfold read
  rw [runRecs_append, h1]
  simp only [runRecs, hstep]

/-- C8 witness: the mixed binary cell record alone, after an empty prefix. -/
theorem C8_mixed_binary_cell_zone_fatal_witness :
    read ([] ++ mixedBinCellRec :: []) =
      .error ("AssertionError: mixed binary cell zone") :=
  C8_mixed_binary_cell_zone_fatal [] [] initState mixedBinCellRec
    rfl (Or.inl rfl) rfl rfl (by decide)

/-- C9: recoverable conditions warn and continue.  A record with an
unrecognized top-level tag is skipped, appending one warning and leaving the
rest of the state unchanged; an ASCII tag-12 cell zone with element type 0
(mixed) likewise warns and is skipped; and the concrete stream of one
unknown-tag record between two point records decodes to the two point chunks
concatenated in order, with exactly one warning emitted. -/
theorem C9_recoverable_warn_and_continue (st st2 : RState) (r rm : MshRecord)
    (hunk : tagKind r.tag = .unknown)
    (hm : tagKind rm.tag = .asciiCells)
    (hsc : rm.selfContained = false)
    (hlen : 4 < rm.zone.length)
    (hty : rm.zone.getD 4 0 = 0) :
    step st r = .ok { st with warns := st.warns ++
      ["Unknown index \x27" ++ r.tag ++ "\x27. Skipping."] } ∧
    step st2 rm = .ok { st2 with warns := st2.warns ++
      ["Cannot deal with mixed element type. Skipping."] } ∧
    read [warnPointA, unknownRec, warnPointB] =
      .ok ⟨[[1, 2, 3], [4, 5, 6]], [],
           ["Unknown index \x2742\x27. Skipping."]⟩ := by
  refine ⟨?_, ?_, by decide⟩
  · simp only [step, hunk]
  · simp only [step, hm]
    simp only [handleCells12]
    rw [if_neg (by simp [hsc]), if_neg (by omega), hty]
    rfl

/-- C9 witness: the unknown-tag record and the mixed ASCII cell record, from
the initial state. -/
theorem C9_recoverable_warn_and_continue_witness :
    step initState unknownRec = .ok { initState with warns :=
      initState.warns ++
        ["Unknown index \x27" ++ unknownRec.tag ++ "\x27. Skipping."] } ∧
    step initState mixedCellRec = .ok { initState with warns :=
      initState.warns ++
        ["Cannot deal with mixed element type. Skipping."] } ∧
    read [warnPointA, unknownRec, warnPointB] =
      .ok ⟨[[1, 2, 3], [4, 5, 6]], [],
           ["Unknown index \x2742\x27. Skipping."]⟩ :=
  C9_recoverable_warn_and_continue initState initState unknownRec mixedCellRec
    (by decide) (by decide) rfl (by decide) rfl

/-- C6: finalization of a successful decode.  The points array is the
concatenation, in encounter order, of the chunks of all point-data records;
there is a recorded first point index — the first-index of the first point
zone — and every node-index row of the decoded cells is a row sliced from
some record's payload with that index subtracted entrywise.  In particular,
for the concrete stream whose point zone starts at file index 5, file index
5 becomes points index 0 and the cell nodes are shifted by 5 (the rebased
triangle row for file nodes `5 6 5` is `[0, 1, 0]`). -/
theorem C6_finalization (s : List MshRecord) (m : DecodeResult)
    (h : read s = .ok m) :
    (m.points = ((s.filter (fun r => isPointDataRec r)).map chunkOf).flatten ∧
     ∃ f, firstIdxOf s = some f ∧
       ∀ p ∈ m.cells, ∀ row ∈ p.2, ∃ raw, rowFromStream s raw ∧
         row = raw.map (fun (i : Nat) => (i : Int) - f)) ∧
    read [shiftPoint5, shiftCell5] = .ok shiftResult := by
  refine ⟨?_, by decide⟩
  unfold read at h
  cases hr : runRecs initState s with
  | error e => rw [hr] at h; exact Except.noConfusion h
  | ok st =>
      rw [hr] at h
      replace h : finalize st = .ok m := h
      obtain ⟨hp, hf, hc⟩ := runRecs_shape hr
      have hp' : st.points = (s.filter (fun r => isPointDataRec r)).map chunkOf := by
        simpa [initState] using hp
      have hf' : st.first_point_index_overall = firstIdxOf s := by
        simpa [initState] using hf
      have hcells : cellsAll (rowFromStream s) st.cells := by
        refine hc (rowFromStream s) ?_ ?_
        · intro p hp0
          exact absurd hp0 (List.not_mem_nil p)
        · intro r hr0 row hrow
          exact ⟨r, hr0, hrow⟩
      unfold finalize at h
      split at h
      · exact Except.noConfusion h
      · rename_i hne
        have hne' : st.points ≠ [] := by
          intro hnil
          exact hne (by simp [hnil])
        have hfilter : (s.filter (fun r => isPointDataRec r)) ≠ [] := by
          intro hemp
          apply hne'
          rw [hp', hemp]
          rfl
        have hfind : ((s.find? (fun r => isPointDataRec r)).isSome) = true := by
          rw [List.find?_isSome]
          obtain ⟨x, hx⟩ := List.exists_mem_of_ne_nil _ hfilter
          have hx2 := List.mem_filter.mp hx
          exact ⟨x, hx2.1, hx2.2⟩
        obtain ⟨r0, hr0⟩ := Option.isSome_iff_exists.mp hfind
        have hsome : firstIdxOf s = some (r0.zone.getD 1 0) := by
          unfold firstIdxOf
          rw [hr0]
          rfl
        split at h
        · rename_i hce
          injection h with h
          subst h
          refine ⟨by rw [hp'], ⟨r0.zone.getD 1 0, hsome, ?_⟩⟩
          intro p hp0
          exact absurd hp0 (by simp [List.isEmpty_iff.mp hce])
        · split at h
          · exact Except.noConfusion h
          · rename_i f hfeq
            injection h with h
            subst h
            refine ⟨by rw [hp'], ⟨f, by rw [← hf', hfeq], ?_⟩⟩
            intro p hp0 row hrow
            rcases List.mem_map.mp hp0 with ⟨q, hq, hpq⟩
            subst hpq
            rcases List.mem_map.mp hrow with ⟨raw, hraw, hrowq⟩
            exact ⟨raw, hcells q hq raw hraw, hrowq.symm⟩

/-- C6 witness: the stream whose point zone starts at file index 5. -/
theorem C6_finalization_witness :
    (shiftResult.points =
      ((([shiftPoint5, shiftCell5] : List MshRecord).filter
        (fun r => isPointDataRec r)).map chunkOf).flatten ∧
     ∃ f, firstIdxOf [shiftPoint5, shiftCell5] = some f ∧
       ∀ p ∈ shiftResult.cells, ∀ row ∈ p.2, ∃ raw,
         rowFromStream [shiftPoint5, shiftCell5] raw ∧
         row = raw.map (fun (i : Nat) => (i : Int) - f)) ∧
    read [shiftPoint5, shiftCell5] = .ok shiftResult :=
  C6_finalization [shiftPoint5, shiftCell5] shiftResult (by decide)

end Ansys
